import Mathlib

/-!
Verification of the tinydock container runtime's core subsystems against its
specification: the IPAM allocator (package `ipam`), the cgroup resource
controller (package `cgroups`), the iptables port-forwarding rules (package
`network`), and the container lifecycle orchestrator (package `container`).

Machine integers (`uint32`, `uint16`) are modelled as `Nat`; IPv4 addresses
are `Nat` values below 2^32 exactly as the Go code holds them after
`ipToUint32`. Filesystem writes (`saveState`, `saveInfo`, cgroup file writes)
are effects whose success is an oracle `Bool` passed to the model; the
functions return both the Go result and the in-memory state after the call,
since Go mutates shared structs in place.
-/

namespace Tinydock

/-! ## IPAM (package `ipam`)

The allocator state is `IPAM{ Prefixes map[string]*Prefix }`. Map keys are
the exact CIDR strings given to `CreatePrefix`; `CreatePrefix` re-parses each
key with `net.ParseCIDR` when checking overlap, so the model keeps keys in a
parsed form `CIDR` whose `raw` rendering is the Go map key. Go map iteration
order is unspecified; the model fixes insertion order, which is the only
freedom the code observes. -/

/-- Go `uint32ToIP(n)` followed by `net.IP.String()`: dotted-quad rendering,
each byte obtained as in the source by shifting and truncating (`byte(n>>k)`,
that is `&&& 255`). -/
def ipStr (n : Nat) : String :=
  toString ((n >>> 24) &&& 255) ++ "." ++ toString ((n >>> 16) &&& 255) ++ "." ++
    toString ((n >>> 8) &&& 255) ++ "." ++ toString (n &&& 255)

/-- Go `net.CIDRMask(ones, 32)` read back through `ipToUint32`: the uint32
with the top `ones` bits set. -/
def maskOf (ones : Nat) : Nat := 2 ^ 32 - 2 ^ (32 - ones)

/-- Go `*net.IPNet`, restricted to IPv4 as the source is: a 32-bit address
and the mask's leading-ones count (`Mask.Size()` returns `(ones, 32)`). -/
structure IPNet where
  ip : Nat
  ones : Nat
deriving Repr, DecidableEq

/-- Go `(*net.IPNet).String()`: `address/ones`. -/
def IPNet.cidrString (p : IPNet) : String := ipStr p.ip ++ "/" ++ toString p.ones

/-- Go `(*net.IPNet).Contains(x)`: the candidate address and the network's
own address are both masked and compared. -/
def IPNet.containsIP (p : IPNet) (x : Nat) : Bool :=
  (x &&& maskOf p.ones) == (p.ip &&& maskOf p.ones)

/-- A CIDR string accepted by `net.ParseCIDR`: four octets and a mask
length. `raw` is the exact string the caller wrote (the Go map key);
`network` is the `*net.IPNet` that `net.ParseCIDR` returns, whose IP is
masked down to the network address. Strings that `net.ParseCIDR` rejects are
outside the model's input space. -/
structure CIDR where
  a : Nat
  b : Nat
  c : Nat
  d : Nat
  ones : Nat
deriving Repr, DecidableEq

/-- Well-formedness of the parsed octets: what `net.ParseCIDR` accepted. -/
def CIDR.wf (x : CIDR) : Prop :=
  x.a < 256 ∧ x.b < 256 ∧ x.c < 256 ∧ x.d < 256 ∧ x.ones ≤ 32

instance (x : CIDR) : Decidable x.wf := by
  unfold CIDR.wf
  infer_instance

/-- The IP part of the caller's string as a uint32. -/
def CIDR.rawIP (x : CIDR) : Nat := x.a * 2 ^ 24 + x.b * 2 ^ 16 + x.c * 2 ^ 8 + x.d

/-- The exact CIDR string the caller passed (the Go map key). -/
def CIDR.raw (x : CIDR) : String := ipStr x.rawIP ++ "/" ++ toString x.ones

/-- The `*net.IPNet` returned by `net.ParseCIDR`: the IP masked to the
network address. -/
def CIDR.network (x : CIDR) : IPNet := ⟨x.rawIP &&& maskOf x.ones, x.ones⟩

/-- Go `Prefix` struct: the registered CIDR string and the allocated IPs. -/
structure Prefix where
  cidr : String
  allocatedIPs : List String
deriving Repr, DecidableEq

/-- Go `IPAM`: the prefix table. An association list models the map; the key
string of an entry `(x, p)` is `x.raw`. -/
structure IPAM where
  prefixes : List (CIDR × Prefix)
deriving Repr, DecidableEq

/-- Go helper `contains(slice, s)`: linear scan for an equal string. -/
def contains (slice : List String) (s : String) : Bool :=
  slice.any (fun item => item == s)

/-- Go `prefixesOverlap(a, b) = a.Contains(b.IP) || b.Contains(a.IP)`. -/
def prefixesOverlap (x y : IPNet) : Bool := x.containsIP y.ip || y.containsIP x.ip

/-- The first element satisfying `p` together with its index: the shape of
the Go lookup/range loops (`break` at the first hit). -/
def findIdxFrom {α : Type} (p : α → Bool) : List α → Option (Nat × α)
  | [] => none
  | x :: rest =>
    if p x then some (0, x) else (findIdxFrom p rest).map (fun r => (r.1 + 1, r.2))

/-- Go `(*IPAM).saveState()`: serialize and write the state file. The
filesystem outcome is the oracle `ok`. -/
def saveState (ok : Bool) : Except String Unit :=
  if ok then Except.ok () else Except.error "failed to save state"

/-- Go `(*IPAM).CreatePrefix(cidr)`: reject any overlap with an existing
registered prefix (each existing key re-parsed), else register under the
caller's exact string with no allocations, then persist. On a failed
`saveState` the Go map keeps the new entry (mutation precedes the save). -/
def IPAM.CreatePrefix (saveOk : Bool) (st : IPAM) (x : CIDR) : Except String Unit × IPAM :=
  match findIdxFrom (fun en => prefixesOverlap x.network en.1.network) st.prefixes with
  | some (_, en) =>
    (Except.error ("prefix " ++ x.raw ++ " overlaps with existing prefix " ++ en.1.raw), st)
  | none =>
    let st' : IPAM := ⟨st.prefixes ++ [(x, { cidr := x.raw, allocatedIPs := [] })]⟩
    (saveState saveOk, st')

/-- The scan loop of `RequestIP` (`for ip < bcast { ... ip++ }`), written
with explicit fuel `bcast - ip` so that it is structurally recursive; the
loop guard `ip < bcast` is exactly `fuel > 0`. -/
def scanIPAux (alloc : List String) : Nat → Nat → Option Nat
  | _, 0 => none
  | ip, fuel + 1 =>
    if contains alloc (ipStr ip) then scanIPAux alloc (ip + 1) fuel else some ip

/-- The scan of `RequestIP` from address `ip` (exclusive bound `bcast`). -/
def scanIP (alloc : List String) (ip bcast : Nat) : Option Nat :=
  scanIPAux alloc ip (bcast - ip)

/-- Go's broadcast computation in `RequestIP`:
`bcast := ip | ^ipToUint32(net.IP(prefix.Mask))`, the uint32 complement
written as xor with all ones. -/
def bcastOf (pfx : IPNet) : Nat := pfx.ip ||| ((2 ^ 32 - 1) ^^^ maskOf pfx.ones)

/-- Go `(*IPAM).RequestIP(prefix)`: look the prefix up by its canonical
string, refuse a /32, then scan from network address + 1 up to (excluding)
the broadcast address for the first string not in `AllocatedIPs`. On a
failed save the just-appended element is truncated away again before the
error returns. -/
def IPAM.RequestIP (saveOk : Bool) (st : IPAM) (pfx : IPNet) :
    Except String IPNet × IPAM :=
  let cidr := pfx.cidrString
  match findIdxFrom (fun en => en.1.raw == cidr) st.prefixes with
  | none => (Except.error ("prefix " ++ cidr ++ " not found"), st)
  | some (i, en) =>
    if pfx.ones == 32 then (Except.error "cannot allocate from /32 prefix", st)
    else
      match scanIP en.2.allocatedIPs (pfx.ip + 1) (bcastOf pfx) with
      | some cand =>
        let appended := en.2.allocatedIPs ++ [ipStr cand]
        if saveOk then
          (Except.ok ⟨cand, pfx.ones⟩,
           ⟨st.prefixes.set i (en.1, { en.2 with allocatedIPs := appended })⟩)
        else
          (Except.error "failed to save state",
           ⟨st.prefixes.set i (en.1, { en.2 with allocatedIPs := appended.dropLast })⟩)
      | none => (Except.error ("no available IPs in prefix " ++ cidr), st)

/-- Go `(*IPAM).ReleaseIP(ip)`: find the first registered prefix whose
network contains the address, find the first occurrence of its string in
`AllocatedIPs`, remove it by overwriting with the last element and
truncating, then persist. -/
def IPAM.ReleaseIP (saveOk : Bool) (st : IPAM) (ipn : IPNet) : Except String Unit × IPAM :=
  match findIdxFrom (fun en => en.1.network.containsIP ipn.ip) st.prefixes with
  | none => (Except.error ("no prefix found containing IP " ++ ipStr ipn.ip), st)
  | some (j, en) =>
    let ipS := ipStr ipn.ip
    match findIdxFrom (fun s => s == ipS) en.2.allocatedIPs with
    | none =>
      (Except.error ("IP " ++ ipS ++ " was not allocated from prefix " ++ en.1.raw), st)
    | some (k, _) =>
      let alloc := en.2.allocatedIPs
      let newAlloc := (alloc.set k (alloc.getLastD "")).dropLast
      (saveState saveOk, ⟨st.prefixes.set j (en.1, { en.2 with allocatedIPs := newAlloc })⟩)

/-- Go `(*IPAM).ReleasePrefix(prefix)`: look up by canonical string, fail
while any address is allocated (the message reports the count), else delete
the entry and persist. -/
def IPAM.ReleasePrefix (saveOk : Bool) (st : IPAM) (pfx : IPNet) :
    Except String Unit × IPAM :=
  let cidr := pfx.cidrString
  match findIdxFrom (fun en => en.1.raw == cidr) st.prefixes with
  | none => (Except.error ("prefix " ++ cidr ++ " not found"), st)
  | some (j, en) =>
    if en.2.allocatedIPs.length > 0 then
      (Except.error ("cannot release prefix " ++ cidr ++ ": has " ++
        toString en.2.allocatedIPs.length ++ " allocated IPs"), st)
    else
      (saveState saveOk, ⟨st.prefixes.eraseIdx j⟩)

/-- States reachable from a fresh store by any sequence of IPAM operations,
with either save outcome at each step. -/
inductive Reachable : IPAM → Prop where
  | empty : Reachable ⟨[]⟩
  | create (so : Bool) (st : IPAM) (x : CIDR) :
      Reachable st → Reachable (IPAM.CreatePrefix so st x).2
  | request (so : Bool) (st : IPAM) (pfx : IPNet) :
      Reachable st → Reachable (IPAM.RequestIP so st pfx).2
  | release (so : Bool) (st : IPAM) (ipn : IPNet) :
      Reachable st → Reachable (IPAM.ReleaseIP so st ipn).2
  | releasePfx (so : Bool) (st : IPAM) (pfx : IPNet) :
      Reachable st → Reachable (IPAM.ReleasePrefix so st pfx).2

/-- Every prefix's allocated list is duplicate-free: "no two live
allocations hold the same address". -/
def NodupAll (st : IPAM) : Prop := ∀ en ∈ st.prefixes, en.2.allocatedIPs.Nodup

instance {ε α : Type} [DecidableEq ε] [DecidableEq α] : DecidableEq (Except ε α) := fun x y =>
  match x, y with
  | Except.ok a, Except.ok b =>
    if h : a = b then isTrue (by rw [h]) else isFalse (fun hc => h (Except.ok.inj hc))
  | Except.error a, Except.error b =>
    if h : a = b then isTrue (by rw [h]) else isFalse (fun hc => h (Except.error.inj hc))
  | Except.ok _, Except.error _ => isFalse (fun hc => Except.noConfusion hc)
  | Except.error _, Except.ok _ => isFalse (fun hc => Except.noConfusion hc)

/-- Whether a Go call returned a non-nil error. -/
def isError {ε α : Type} : Except ε α → Bool
  | Except.error _ => true
  | Except.ok _ => false

/-! ## Resource control (package `cgroups`)

`Configure` creates the scope directory, writes the pid to `cgroup.procs`,
then the optional limits. Each limit is one file write; the model records
the writes as `(file, content)` pairs. Directory creation and the write
syscalls themselves are assumed to succeed (their failure is not at issue in
any claim); the CPU-limit guard is the only internal failure. Go's `float64`
CPU fraction is modelled as an exact rational. -/

/-- Go's fixed CPU period (`period := 100000`). -/
def cpuPeriod : Nat := 100000

/-- Go `int(x)` conversion of a `float64`, on the rationals modelling the
floats: truncation toward zero. -/
def goInt (x : ℚ) : Int := if 0 ≤ x then x.floor else x.ceil

/-- Go `setCPULimit(containerID, limit)`: reject a fraction above the
visible core count before writing, else return the `"quota period"` content
written to the scope's `cpu.max` file. -/
def setCPULimit (availableCores : Nat) (limit : ℚ) : Except String String :=
  if limit > (availableCores : ℚ) then
    Except.error "specified CPU limit exceeds available cores"
  else
    Except.ok (toString (goInt (limit * (cpuPeriod : ℚ))) ++ " " ++ toString cpuPeriod)

/-- Go `cgroups.Configure(id, pid, cpuLimit, memoryLimit)`: the result and
the cgroup file writes performed, in order. -/
def Configure (availableCores : Nat) (pid : Int) (cpuLimit : ℚ) (memoryLimit : String) :
    Except String Unit × List (String × String) :=
  let t0 := [("cgroup.procs", toString pid)]
  let t1 := if memoryLimit != "" then t0 ++ [("memory.max", memoryLimit)] else t0
  if cpuLimit != 0 then
    match setCPULimit availableCores cpuLimit with
    | Except.error e => (Except.error e, t1)
    | Except.ok content => (Except.ok (), t1 ++ [("cpu.max", content)])
  else (Except.ok (), t1)

/-! ## Port forwarding (package `network`, iptables rules)

Each function issues one `iptables` invocation per rule; the model lists the
argument vectors in issue order (Go stops at the first failing invocation;
the lists are the commands issued when none fails). Only the fields the two
functions read are modelled on the endpoint: the allocated address
(`ep.IPNet.IP`), the host interface name, and the port mappings. -/

/-- Go `PortMapping`: host port and container port (`uint16`). -/
structure PortMapping where
  hostPort : Nat
  containerPort : Nat
deriving Repr, DecidableEq

/-- Go `Endpoint`, restricted to the fields the iptables code reads. -/
structure Endpoint where
  ip : Nat
  hostInterface : String
  portMappings : List PortMapping
deriving Repr, DecidableEq

/-- Go `setupPortForwarding(ep)`: per mapping, a PREROUTING DNAT rule, an
OUTPUT DNAT rule for 127.0.0.1, and a POSTROUTING MASQUERADE rule, appended
with `-A`. -/
def setupPortForwarding (ep : Endpoint) : List (List String) :=
  ep.portMappings.flatMap (fun pm =>
    [["-t", "nat", "-A", "PREROUTING", "!", "-i", ep.hostInterface, "-p", "tcp",
      "--dport", toString pm.hostPort, "-j", "DNAT",
      "--to-destination", ipStr ep.ip ++ ":" ++ toString pm.containerPort],
     ["-t", "nat", "-A", "OUTPUT", "-p", "tcp", "-d", "127.0.0.1",
      "--dport", toString pm.hostPort, "-j", "DNAT",
      "--to-destination", ipStr ep.ip ++ ":" ++ toString pm.containerPort],
     ["-t", "nat", "-A", "POSTROUTING", "-p", "tcp", "-d", ipStr ep.ip,
      "--dport", toString pm.containerPort, "-j", "MASQUERADE"]])

/-- Go `cleanupPortForwarding(ep)`: the delete (`-D`) variants, in the same
per-mapping order. -/
def cleanupPortForwarding (ep : Endpoint) : List (List String) :=
  ep.portMappings.flatMap (fun pm =>
    [["-t", "nat", "-D", "PREROUTING", "!", "-i", ep.hostInterface, "-p", "tcp",
      "--dport", toString pm.hostPort, "-j", "DNAT",
      "--to-destination", ipStr ep.ip ++ ":" ++ toString pm.containerPort],
     ["-t", "nat", "-D", "OUTPUT", "-p", "tcp", "-d", "127.0.0.1",
      "--dport", toString pm.hostPort, "-j", "DNAT",
      "--to-destination", ipStr ep.ip ++ ":" ++ toString pm.containerPort],
     ["-t", "nat", "-D", "POSTROUTING", "-p", "tcp", "-d", ipStr ep.ip,
      "--dport", toString pm.containerPort, "-j", "MASQUERADE"]])

/-! ## Container lifecycle (package `container`)

`Stop` and `Init` interact with the OS (process liveness, signals, the
filesystem). The model passes those interactions in as oracles and records
the externally visible effects: records saved, signals delivered, resources
acquired and torn down. -/

/-- Go `status`: `running` or `exited`. -/
inductive Status where
  | running
  | exited
deriving Repr, DecidableEq

/-- Go `info`, restricted to the fields the modelled operations read.
(`Name`, `CreatedAt`, `Volumes` and the endpoint are carried through
untouched by `Stop` and play no role here.) -/
structure Info where
  id : String
  pid : Int
  status : Status
  image : String
  command : List String
deriving Repr, DecidableEq

/-- Go `parseSignal(sig)` from `container/util.go`: the three literal names,
else a numeric signal. -/
def parseSignal (sig : String) : Except String Int :=
  if sig.startsWith "SIG" then
    let s := sig.toUpper
    if s == "SIGINT" then Except.ok 2
    else if s == "SIGTERM" then Except.ok 15
    else if s == "SIGKILL" then Except.ok 9
    else Except.error ("unsupported signal: " ++ sig)
  else
    match sig.toInt? with
    | some n => Except.ok n
    | none => Except.error ("invalid signal: " ++ sig)

/-- The OS as `Stop` observes it: `killProbe k` is whether
`syscall.Kill(pid, 0)` reports the process alive at the k-th liveness check
(k = 0 before signalling, k = 1..10 inside the wait loop), `verify` is the
`verifyProcess` cgroup-membership corroboration (the container id appears in
`/proc/<pid>/cgroup`), `saveOk` the `saveInfo` outcome, and `killOk` whether
delivering the real signal succeeds. -/
structure StopEnv where
  killProbe : Nat → Bool
  verify : Bool
  saveOk : Bool
  killOk : Bool

/-- What one `container.Stop` call did: its returned error (if any), the
in-memory record afterwards, the records passed to `saveInfo`, and the
signals actually delivered to the recorded pid. -/
structure StopOutcome where
  result : Except String Unit
  info : Info
  saved : List Info
  signalsSent : List Int
deriving DecidableEq

/-- The bounded wait loop of `Stop` (`for i := 0; i < 10; i++`), entered
after the signal `signal` was delivered. -/
def stopPoll (env : StopEnv) (inf : Info) (signal : Int) : Nat → StopOutcome
  | 0 => ⟨Except.error "container did not stop", inf, [], [signal]⟩
  | fuel + 1 =>
    if env.killProbe (11 - (fuel + 1)) then stopPoll env inf signal fuel
    else
      let inf' := { inf with status := Status.exited }
      if env.saveOk then ⟨Except.ok (), inf', [inf'], [signal]⟩
      else ⟨Except.error "failed to update container status", inf', [], [signal]⟩

/-- Go `container.Stop(id, sig)`, given the loaded record `inf` (`loadInfo`
success is the callers' premise). Refuse an exited record; if the pid is
dead or the cgroup corroboration fails, mark the record exited and report
"container already stopped" without signalling; else parse the requested
signal (default SIGTERM), deliver it, and poll for death up to 10 times. -/
def Stop (env : StopEnv) (inf : Info) (sig : String) : StopOutcome :=
  if inf.status == Status.exited then
    ⟨Except.error "container is not running", inf, [], []⟩
  else if !(env.killProbe 0) || !env.verify then
    let inf' := { inf with status := Status.exited }
    if env.saveOk then ⟨Except.error "container already stopped", inf', [inf'], []⟩
    else ⟨Except.error "failed to update container status", inf', [], []⟩
  else
    match (if sig == "" then Except.ok 15 else parseSignal sig) with
    | Except.error e => ⟨Except.error ("failed to parse signal: " ++ e), inf, [], []⟩
    | Except.ok signal =>
      if !env.killOk then ⟨Except.error "failed to stop container", inf, [], []⟩
      else stopPoll env inf signal 10

/-- The steps of `container.Init` that acquire or release container
resources, plus the info-record write. The three teardown actions are in
the alphabet so that their absence from a trace is expressible; the source's
`Init` contains no call to them. -/
inductive InitAction where
  | createDir
  | overlaySetup
  | processStart
  | cgroupConfigure
  | networkSetup
  | saveInfoRec
  | cgroupRemove
  | overlayCleanup
  | networkDisconnect
deriving Repr, DecidableEq

/-- Success or failure of each step `container.Init` takes, in source
order. -/
structure InitEnv where
  pipeOk : Bool
  createDirOk : Bool
  prepareOk : Bool
  overlayOk : Bool
  startOk : Bool
  writeArgsOk : Bool
  cgroupsOk : Bool
  networkOk : Bool
  saveOk : Bool
deriving Repr, DecidableEq

/-- Go `container.Init`'s control flow up to `saveInfo`: every failing step
returns its error at once (there is no rollback code on these paths), and
the trace lists the completed actions. `handleLifecycle`, reached only after
a successful save, is beyond the claims and not modelled. -/
def Init (env : InitEnv) : Except String Unit × List InitAction :=
  if !env.pipeOk then (Except.error "failed to create pipe", [])
  else if !env.createDirOk then (Except.error "failed to create container directory", [])
  else if !env.prepareOk then (Except.error "failed to prepare command", [InitAction.createDir])
  else if !env.overlayOk then
    (Except.error "failed to set up overlay", [InitAction.createDir])
  else if !env.startOk then
    (Except.error "failed to initialize container",
     [InitAction.createDir, InitAction.overlaySetup])
  else if !env.writeArgsOk then
    (Except.error "failed to write to pipe",
     [InitAction.createDir, InitAction.overlaySetup, InitAction.processStart])
  else if !env.cgroupsOk then
    (Except.error "failed to configure cgroups",
     [InitAction.createDir, InitAction.overlaySetup, InitAction.processStart])
  else if !env.networkOk then
    (Except.error "failed to set up network",
     [InitAction.createDir, InitAction.overlaySetup, InitAction.processStart,
      InitAction.cgroupConfigure])
  else if !env.saveOk then
    (Except.error "failed to save info",
     [InitAction.createDir, InitAction.overlaySetup, InitAction.processStart,
      InitAction.cgroupConfigure, InitAction.networkSetup])
  else
    (Except.ok (),
     [InitAction.createDir, InitAction.overlaySetup, InitAction.processStart,
      InitAction.cgroupConfigure, InitAction.networkSetup, InitAction.saveInfoRec])

/-! ## Concrete stores used to exercise the claims -/

/-- The network 10.0.0.0 as a uint32. -/
def ipTen : Nat := 167772160

/-- A fresh store holding only the block 10.0.0.0/30. -/
def st30 : IPAM := (IPAM.CreatePrefix true ⟨[]⟩ ⟨10, 0, 0, 0, 30⟩).2

/-- The parsed 10.0.0.0/30. -/
def net30 : IPNet := ⟨ipTen, 30⟩

/-- `st30` after one allocation. -/
def st30a : IPAM := (IPAM.RequestIP true st30 net30).2

/-- `st30` after two allocations. -/
def st30b : IPAM := (IPAM.RequestIP true st30a net30).2

/-- The parsed 10.0.0.0/24. -/
def net24 : IPNet := ⟨ipTen, 24⟩

/-- A fresh store holding only the single-address block 10.0.0.1/32. -/
def st32 : IPAM := (IPAM.CreatePrefix true ⟨[]⟩ ⟨10, 0, 0, 1, 32⟩).2

/-- The parsed 10.0.0.1/32. -/
def net32 : IPNet := ⟨ipTen + 1, 32⟩

/-- A store holding 10.0.0.0/24 with 10.0.0.1, 10.0.0.2, 10.0.0.3
allocated in that order. -/
def stAlloc3 : IPAM :=
  (IPAM.RequestIP true
    (IPAM.RequestIP true
      (IPAM.RequestIP true (IPAM.CreatePrefix true ⟨[]⟩ ⟨10, 0, 0, 0, 24⟩).2 net24).2
      net24).2
    net24).2

/-- `stAlloc3` after releasing 10.0.0.1 and then 10.0.0.3 (the most
recently released address is 10.0.0.3, while 10.0.0.1 is also free). -/
def stAfterReleases : IPAM :=
  (IPAM.ReleaseIP true (IPAM.ReleaseIP true stAlloc3 ⟨ipTen + 1, 24⟩).2 ⟨ipTen + 3, 24⟩).2

/-- The `Init` step outcomes where everything succeeds except cgroup
configuration. -/
def envCgroupFail : InitEnv := ⟨true, true, true, true, true, true, false, true, true⟩

/-- A `Stop` environment whose pid probes all report the process dead. -/
def envDeadPid : StopEnv := ⟨fun _ => false, true, true, true⟩

/-- A `Stop` environment where the pid is alive but belongs to an unrelated
process (the cgroup corroboration fails). -/
def envRecycledPid : StopEnv := ⟨fun _ => true, false, true, true⟩

/-- A concrete running container record. -/
def infoW : Info := ⟨"abc12345", 4242, Status.running, "busybox", ["sh"]⟩

/-! ## Helper lemmas on the lookup loops -/

theorem findIdxFrom_some {α : Type} (p : α → Bool) :
    ∀ (l : List α) (k : Nat) (e : α), findIdxFrom p l = some (k, e) →
      l[k]? = some e ∧ p e = true := by
  intro l
  induction l with
  | nil => intro k e h; simp [findIdxFrom] at h
  | cons x rest ih =>
    intro k e h
    by_cases hx : p x
    · simp [findIdxFrom, hx] at h
      obtain ⟨hk, he⟩ := h
      subst hk; subst he
      simpa using hx
    · simp [findIdxFrom, hx] at h
      obtain ⟨k0, hr, hk⟩ := h
      obtain ⟨h1, h2⟩ := ih k0 e hr
      subst hk
      simpa [h1] using h2

theorem findIdxFrom_set_self {α : Type} (p : α → Bool) :
    ∀ (l : List α) (k : Nat) (e : α), findIdxFrom p l = some (k, e) → l.set k e = l := by
  intro l
  induction l with
  | nil => intro k e h; simp [findIdxFrom] at h
  | cons x rest ih =>
    intro k e h
    by_cases hx : p x
    · simp [findIdxFrom, hx] at h
      obtain ⟨hk, he⟩ := h
      subst hk; subst he
      rfl
    · simp [findIdxFrom, hx] at h
      obtain ⟨k0, hr, hk⟩ := h
      subst hk
      simp [List.set, ih k0 e hr]

/-! ## Claim theorems -/

theorem contains_iff (l : List String) (s : String) : contains l s = true ↔ s ∈ l := by
  simp [contains]

theorem scanIPAux_some (alloc : List String) :
    ∀ fuel ip r : Nat, scanIPAux alloc ip fuel = some r →
      ip ≤ r ∧ r < ip + fuel ∧ contains alloc (ipStr r) = false ∧
      ∀ z, ip ≤ z → z < r → contains alloc (ipStr z) = true := by
  intro fuel
  induction fuel with
  | zero => intro ip r h; simp [scanIPAux] at h
  | succ n ih =>
    intro ip r h
    by_cases hc : contains alloc (ipStr ip) = true
    · rw [scanIPAux, if_pos hc] at h
      obtain ⟨h1, h2, h3, h4⟩ := ih (ip + 1) r h
      refine ⟨by omega, by omega, h3, fun z hz1 hz2 => ?_⟩
      rcases Nat.eq_or_lt_of_le hz1 with he | hl
      · rw [← he]; exact hc
      · exact h4 z hl hz2
    · have hc' : contains alloc (ipStr ip) = false := by
        simpa using hc
      rw [scanIPAux, if_neg (by simp [hc'])] at h
      obtain rfl : ip = r := Option.some.inj h
      exact ⟨Nat.le_refl _, by omega, hc',
        fun z hz1 hz2 => absurd (Nat.lt_of_le_of_lt hz1 hz2) (Nat.lt_irrefl _)⟩

theorem scanIPAux_le (alloc : List String) :
    ∀ fuel ip x : Nat, ip ≤ x → x < ip + fuel → contains alloc (ipStr x) = false →
      ∃ r, scanIPAux alloc ip fuel = some r ∧ r ≤ x := by
  intro fuel
  induction fuel with
  | zero => intro ip x h1 h2; omega
  | succ n ih =>
    intro ip x h1 h2 hfree
    by_cases hc : contains alloc (ipStr ip) = true
    · have hne : ip ≠ x := by
        intro he
        rw [he, hfree] at hc
        cases hc
      obtain ⟨r, hr, hle⟩ := ih (ip + 1) x (by omega) (by omega) hfree
      exact ⟨r, by rw [scanIPAux, if_pos hc]; exact hr, hle⟩
    · exact ⟨ip, by rw [scanIPAux, if_neg hc], h1⟩

/-- C3: for a registered prefix, `RequestIP` returns the numerically lowest
address strictly between the network and broadcast addresses that is not
currently allocated; it fails on a /32 prefix, and fails with an exhaustion
error when every in-range address is allocated; concretely a /30 yields
exactly the two addresses 10.0.0.1 and 10.0.0.2 and the third request fails
with the exhaustion error. -/
theorem requestIP_first_fit :
    (∀ (st : IPAM) (pfx : IPNet) (j : Nat) (en : CIDR × Prefix) (r : IPNet) (st' : IPAM),
      findIdxFrom (fun x => x.1.raw == pfx.cidrString) st.prefixes = some (j, en) →
      IPAM.RequestIP true st pfx = (Except.ok r, st') →
      r.ones = pfx.ones ∧ pfx.ip < r.ip ∧ r.ip < bcastOf pfx ∧
      contains en.2.allocatedIPs (ipStr r.ip) = false ∧
      ∀ z, pfx.ip < z → z < r.ip → contains en.2.allocatedIPs (ipStr z) = true) ∧
    (∀ (st : IPAM) (pfx : IPNet) (j : Nat) (en : CIDR × Prefix),
      findIdxFrom (fun x => x.1.raw == pfx.cidrString) st.prefixes = some (j, en) →
      pfx.ones = 32 →
      IPAM.RequestIP true st pfx = (Except.error "cannot allocate from /32 prefix", st)) ∧
    (∀ (st : IPAM) (pfx : IPNet) (j : Nat) (en : CIDR × Prefix),
      findIdxFrom (fun x => x.1.raw == pfx.cidrString) st.prefixes = some (j, en) →
      pfx.ones ≠ 32 →
      (∀ z, pfx.ip < z → z < bcastOf pfx → contains en.2.allocatedIPs (ipStr z) = true) →
      IPAM.RequestIP true st pfx =
        (Except.error ("no available IPs in prefix " ++ pfx.cidrString), st)) ∧
    (IPAM.RequestIP true st30 net30).1 = Except.ok ⟨ipTen + 1, 30⟩ ∧
    (IPAM.RequestIP true st30a net30).1 = Except.ok ⟨ipTen + 2, 30⟩ ∧
    (IPAM.RequestIP true st30b net30).1 =
      Except.error "no available IPs in prefix 10.0.0.0/30" := by
  refine ⟨?_, ?_, ?_, by decide, by decide, by decide⟩
  · intro st pfx j en r st' hfind heq
    simp only [IPAM.RequestIP, hfind] at heq
    by_cases h32 : (pfx.ones == 32) = true
    · rw [if_pos h32] at heq
      simp at heq
    · rw [if_neg h32] at heq
      cases hs : scanIP en.2.allocatedIPs (pfx.ip + 1) (bcastOf pfx) with
      | none => rw [hs] at heq; simp at heq
      | some cand =>
        rw [hs] at heq
        simp only [if_pos] at heq
        have hr : r = ⟨cand, pfx.ones⟩ := by
          have := congrArg Prod.fst heq
          simpa using this.symm
        have hrip : r.ip = cand := by rw [hr]
        have hrones : r.ones = pfx.ones := by rw [hr]
        have hfuel : bcastOf pfx - (pfx.ip + 1) ≠ 0 := by
          intro h0
          rw [scanIP, h0] at hs
          simp [scanIPAux] at hs
        have hfuelpos : 1 ≤ bcastOf pfx - (pfx.ip + 1) := Nat.pos_of_ne_zero hfuel
        obtain ⟨h1, h2, h3, h4⟩ := scanIPAux_some en.2.allocatedIPs _ _ _ hs
        rw [hrip]
        exact ⟨hrones, by omega, by omega, h3, fun z hz1 hz2 => h4 z (by omega) hz2⟩
  · intro st pfx j en hfind h32
    simp [IPAM.RequestIP, hfind, h32]
  · intro st pfx j en hfind h32 hall
    have h32f : (pfx.ones == 32) = false := by simp [h32]
    cases hs : scanIP en.2.allocatedIPs (pfx.ip + 1) (bcastOf pfx) with
    | none => simp [IPAM.RequestIP, hfind, h32f, hs]
    | some cand =>
      have hfuel : bcastOf pfx - (pfx.ip + 1) ≠ 0 := by
        intro h0
        rw [scanIP, h0] at hs
        simp [scanIPAux] at hs
      obtain ⟨h1, h2, h3, _⟩ := scanIPAux_some en.2.allocatedIPs _ _ _ hs
      have := hall cand (by omega) (by omega)
      rw [this] at h3
      cases h3

/-- Witness for C3: the /30 store after one allocation returns the lowest
free address 10.0.0.2, a /32 prefix is refused, and the fully allocated /30
is reported exhausted. -/
theorem requestIP_first_fit_witness :
    ((⟨ipTen + 2, 30⟩ : IPNet).ones = net30.ones ∧ net30.ip < ipTen + 2 ∧
      ipTen + 2 < bcastOf net30 ∧
      contains ["10.0.0.1"] (ipStr (ipTen + 2)) = false ∧
      ∀ z, net30.ip < z → z < ipTen + 2 → contains ["10.0.0.1"] (ipStr z) = true) ∧
    IPAM.RequestIP true st32 net32 =
      (Except.error "cannot allocate from /32 prefix", st32) ∧
    IPAM.RequestIP true st30b net30 =
      (Except.error ("no available IPs in prefix " ++ net30.cidrString), st30b) :=
  ⟨(requestIP_first_fit.1 st30a net30 0
      ⟨⟨10, 0, 0, 0, 30⟩, ⟨"10.0.0.0/30", ["10.0.0.1"]⟩⟩ ⟨ipTen + 2, 30⟩
      (IPAM.RequestIP true st30a net30).2 (by decide) (by decide)),
   (requestIP_first_fit.2.1 st32 net32 0
      ⟨⟨10, 0, 0, 1, 32⟩, ⟨"10.0.0.1/32", []⟩⟩ (by decide) rfl),
   (requestIP_first_fit.2.2.1 st30b net30 0
      ⟨⟨10, 0, 0, 0, 30⟩, ⟨"10.0.0.0/30", ["10.0.0.1", "10.0.0.2"]⟩⟩ (by decide)
      (by decide)
      (fun z hz1 hz2 => by
        have hip : net30.ip = ipTen := rfl
        have hb : bcastOf net30 = ipTen + 3 := by decide
        rw [hip] at hz1
        rw [hb] at hz2
        have hz : z = ipTen + 1 ∨ z = ipTen + 2 := by omega
        rcases hz with h | h <;> rw [h] <;> decide))⟩

theorem containsIP_self (p : IPNet) : p.containsIP p.ip = true := by
  simp [IPNet.containsIP]

/-- C5: for valid CIDR prefixes P and Q with no address overlap (no address
is contained in both networks), registering P and then Q both succeed; when
one network's address set is included in the other's (identical, superset,
or subset), registering Q after P always fails, the overlap being detected
from either direction. -/
theorem createPrefix_overlap_spec (P Q : CIDR) (hP : P.wf) (hQ : Q.wf) :
    ((∀ z, ¬(P.network.containsIP z = true ∧ Q.network.containsIP z = true)) →
      (IPAM.CreatePrefix true ⟨[]⟩ P).1 = Except.ok () ∧
      (IPAM.CreatePrefix true (IPAM.CreatePrefix true ⟨[]⟩ P).2 Q).1 = Except.ok ()) ∧
    (((∀ z, Q.network.containsIP z = true → P.network.containsIP z = true) ∨
      (∀ z, P.network.containsIP z = true → Q.network.containsIP z = true)) →
      (IPAM.CreatePrefix true (IPAM.CreatePrefix true ⟨[]⟩ P).2 Q).1 =
        Except.error ("prefix " ++ Q.raw ++ " overlaps with existing prefix " ++ P.raw)) := by
  have hstP : (IPAM.CreatePrefix true ⟨[]⟩ P).2 =
      ⟨[(P, { cidr := P.raw, allocatedIPs := [] })]⟩ := rfl
  constructor
  · intro hdisj
    have h1 : Q.network.containsIP P.network.ip = false := by
      cases hq : Q.network.containsIP P.network.ip
      · rfl
      · exact absurd ⟨containsIP_self P.network, hq⟩ (hdisj P.network.ip)
    have h2 : P.network.containsIP Q.network.ip = false := by
      cases hq : P.network.containsIP Q.network.ip
      · rfl
      · exact absurd ⟨hq, containsIP_self Q.network⟩ (hdisj Q.network.ip)
    have hov : prefixesOverlap Q.network P.network = false := by
      simp [prefixesOverlap, h1, h2]
    refine ⟨rfl, ?_⟩
    rw [hstP]
    simp [IPAM.CreatePrefix, findIdxFrom, hov, saveState]
  · intro hsub
    have hov : prefixesOverlap Q.network P.network = true := by
      rcases hsub with h | h
      · have hc := h Q.network.ip (containsIP_self Q.network)
        simp [prefixesOverlap, hc]
      · have hc := h P.network.ip (containsIP_self P.network)
        simp [prefixesOverlap, hc]
    rw [hstP]
    simp [IPAM.CreatePrefix, findIdxFrom, hov]

/-- Witness for C5: 10.0.0.0/24 and 10.0.1.0/24 are disjoint and both
register; 10.0.1.0/24 is a subset of the registered 10.0.0.0/16 and is
rejected. -/
theorem createPrefix_overlap_spec_witness :
    ((IPAM.CreatePrefix true ⟨[]⟩ ⟨10, 0, 0, 0, 24⟩).1 = Except.ok () ∧
     (IPAM.CreatePrefix true (IPAM.CreatePrefix true ⟨[]⟩ ⟨10, 0, 0, 0, 24⟩).2
        ⟨10, 0, 1, 0, 24⟩).1 = Except.ok ()) ∧
    (IPAM.CreatePrefix true (IPAM.CreatePrefix true ⟨[]⟩ ⟨10, 0, 0, 0, 16⟩).2
        ⟨10, 0, 1, 0, 24⟩).1 =
      Except.error "prefix 10.0.1.0/24 overlaps with existing prefix 10.0.0.0/16" :=
  ⟨(createPrefix_overlap_spec ⟨10, 0, 0, 0, 24⟩ ⟨10, 0, 1, 0, 24⟩ (by decide) (by decide)).1
      (fun z hz => by
        obtain ⟨h1, h2⟩ := hz
        simp only [IPNet.containsIP, CIDR.network, CIDR.rawIP, beq_iff_eq] at h1 h2
        rw [h1] at h2
        exact absurd h2 (by decide)),
   (createPrefix_overlap_spec ⟨10, 0, 0, 0, 16⟩ ⟨10, 0, 1, 0, 24⟩ (by decide) (by decide)).2
      (Or.inl (fun z hz => by
        simp only [IPNet.containsIP, CIDR.network, CIDR.rawIP, beq_iff_eq] at hz ⊢
        have hm : maskOf 16 = maskOf 24 &&& maskOf 16 := by decide
        rw [hm, ← Nat.and_assoc, hz]
        decide))⟩

/-- C10: if persisting the IPAM state file fails during `RequestIP`, the
address just chosen is removed from the in-memory allocated set before the
error is returned, so a failed `RequestIP` leaves the set of allocated
addresses unchanged (allocation and persistence succeed or fail
together). -/
theorem requestIP_save_fail_leaves_state (st : IPAM) (pfx : IPNet) :
    (IPAM.RequestIP false st pfx).2 = st ∧
    isError (IPAM.RequestIP false st pfx).1 = true := by
  cases hf : findIdxFrom (fun en => en.1.raw == pfx.cidrString) st.prefixes with
  | none => simp [IPAM.RequestIP, hf, isError]
  | some r =>
    obtain ⟨i, en⟩ := r
    by_cases h32 : (pfx.ones == 32) = true
    · simp [IPAM.RequestIP, hf, h32, isError]
    · cases hs : scanIP en.2.allocatedIPs (pfx.ip + 1) (bcastOf pfx) with
      | none => simp [IPAM.RequestIP, hf, h32, hs, isError]
      | some cand =>
        have hset := findIdxFrom_set_self _ _ _ _ hf
        simp [IPAM.RequestIP, hf, h32, hs, isError, List.dropLast_concat, hset]

/-- C7: `ReleasePrefix` fails whenever at least one address is still
allocated from the prefix, leaving the prefix registered (the state is
unchanged), with a message reporting the allocated count; it succeeds,
deleting the prefix, exactly when no address remains allocated. -/
theorem releasePrefix_spec (st : IPAM) (pfx : IPNet) (j : Nat) (en : CIDR × Prefix)
    (hfind : findIdxFrom (fun x => x.1.raw == pfx.cidrString) st.prefixes = some (j, en)) :
    (en.2.allocatedIPs ≠ [] →
      IPAM.ReleasePrefix true st pfx =
        (Except.error ("cannot release prefix " ++ pfx.cidrString ++ ": has " ++
          toString en.2.allocatedIPs.length ++ " allocated IPs"), st)) ∧
    (en.2.allocatedIPs = [] →
      IPAM.ReleasePrefix true st pfx = (Except.ok (), ⟨st.prefixes.eraseIdx j⟩)) := by
  constructor
  · intro h
    simp [IPAM.ReleasePrefix, hfind, List.length_pos.mpr h]
  · intro h
    simp [IPAM.ReleasePrefix, hfind, h, saveState]

/-- Witness for C7 at concrete stores: releasing 10.0.0.0/30 while
10.0.0.1 is allocated fails with the counted message and changes nothing;
releasing it with no allocations deletes it. -/
theorem releasePrefix_spec_witness :
    IPAM.ReleasePrefix true st30a net30 =
      (Except.error "cannot release prefix 10.0.0.0/30: has 1 allocated IPs", st30a) ∧
    IPAM.ReleasePrefix true st30 net30 = (Except.ok (), ⟨[]⟩) :=
  ⟨(releasePrefix_spec st30a net30 0 ⟨⟨10, 0, 0, 0, 30⟩, ⟨"10.0.0.0/30", ["10.0.0.1"]⟩⟩
      (by decide)).1 (by decide),
   (releasePrefix_spec st30 net30 0 ⟨⟨10, 0, 0, 0, 30⟩, ⟨"10.0.0.0/30", []⟩⟩
      (by decide)).2 rfl⟩

/-- C9: `CreatePrefix` registers a prefix under the caller's exact CIDR
string, while `RequestIP` and `ReleasePrefix` look prefixes up by the
canonical network form (`net.IPNet.String()`). For a CIDR whose IP part has
host bits set the two strings differ, so `CreatePrefix` succeeds but every
subsequent `RequestIP` or `ReleasePrefix` on that subnet fails with a
"not found" error. -/
theorem createPrefix_raw_key_mismatch (x : CIDR) (hwf : x.wf)
    (hne : x.raw ≠ x.network.cidrString) :
    (IPAM.CreatePrefix true ⟨[]⟩ x).1 = Except.ok () ∧
    (∀ so, (IPAM.RequestIP so (IPAM.CreatePrefix true ⟨[]⟩ x).2 x.network).1 =
      Except.error ("prefix " ++ x.network.cidrString ++ " not found")) ∧
    (∀ so, (IPAM.ReleasePrefix so (IPAM.CreatePrefix true ⟨[]⟩ x).2 x.network).1 =
      Except.error ("prefix " ++ x.network.cidrString ++ " not found")) := by
  refine ⟨by simp [IPAM.CreatePrefix, findIdxFrom, saveState], ?_, ?_⟩
  · intro so
    simp [IPAM.CreatePrefix, IPAM.RequestIP, findIdxFrom, saveState, hne]
  · intro so
    simp [IPAM.CreatePrefix, IPAM.ReleasePrefix, findIdxFrom, saveState, hne]

/-- Witness for C9 at 192.168.1.5/24: registered under "192.168.1.5/24",
looked up as "192.168.1.0/24". -/
theorem createPrefix_raw_key_mismatch_witness :
    (IPAM.CreatePrefix true ⟨[]⟩ ⟨192, 168, 1, 5, 24⟩).1 = Except.ok () ∧
    (∀ so, (IPAM.RequestIP so (IPAM.CreatePrefix true ⟨[]⟩ ⟨192, 168, 1, 5, 24⟩).2
      (CIDR.network ⟨192, 168, 1, 5, 24⟩)).1 =
      Except.error "prefix 192.168.1.0/24 not found") ∧
    (∀ so, (IPAM.ReleasePrefix so (IPAM.CreatePrefix true ⟨[]⟩ ⟨192, 168, 1, 5, 24⟩).2
      (CIDR.network ⟨192, 168, 1, 5, 24⟩)).1 =
      Except.error "prefix 192.168.1.0/24 not found") :=
  createPrefix_raw_key_mismatch ⟨192, 168, 1, 5, 24⟩ (by decide) (by decide)

theorem findIdxFrom_mem {α : Type} (p : α → Bool) (l : List α) (k : Nat) (e : α)
    (h : findIdxFrom p l = some (k, e)) : e ∈ l := by
  obtain ⟨h1, _⟩ := findIdxFrom_some p l k e h
  obtain ⟨hk, hv⟩ := List.getElem?_eq_some.mp h1
  exact hv ▸ List.getElem_mem hk

theorem set_getLastD_dropLast_perm {α : Type} :
    ∀ (l : List α) (d : α) (k : Nat), k < l.length →
      ((l.set k (l.getLastD d)).dropLast).Perm (l.eraseIdx k) := by
  intro l
  induction l with
  | nil => intro d k hk; simp at hk
  | cons a t ih =>
    intro d k hk
    cases k with
    | zero =>
      cases t with
      | nil => simp
      | cons b t2 =>
        have hne : (b :: t2) ≠ [] := by simp
        have hv : (a :: b :: t2).getLastD d = (b :: t2).getLast hne := by
          rw [List.getLastD_cons, List.getLastD_eq_getLast?,
            List.getLast?_eq_getLast _ hne]
          rfl
        rw [hv]
        show ((b :: t2).getLast hne :: (b :: t2)).dropLast.Perm (b :: t2)
        rw [List.dropLast_cons_of_ne_nil hne]
        have heq : (b :: t2).dropLast ++ [(b :: t2).getLast hne] = b :: t2 :=
          List.dropLast_append_getLast hne
        have hp : ((b :: t2).getLast hne :: (b :: t2).dropLast).Perm
            ((b :: t2).dropLast ++ [(b :: t2).getLast hne]) :=
          (List.perm_append_singleton _ _).symm
        conv_rhs => rw [← heq]
        exact hp
    | succ k2 =>
      have hk2 : k2 < t.length := by simpa using hk
      have htne : t ≠ [] := by
        intro h
        rw [h] at hk2
        simp at hk2
      have hsetne : t.set k2 (t.getLastD a) ≠ [] := by
        intro h
        have hlen := congrArg List.length h
        rw [List.length_set] at hlen
        exact htne (List.length_eq_zero.mp hlen)
      show ((a :: t.set k2 ((a :: t).getLastD d)).dropLast).Perm (a :: t.eraseIdx k2)
      rw [List.getLastD_cons, List.dropLast_cons_of_ne_nil hsetne]
      exact List.Perm.cons a (ih a k2 hk2)

theorem swapRemove_nodup {α : Type} (l : List α) (d : α) (k : Nat)
    (hk : k < l.length) (hnd : l.Nodup) :
    ((l.set k (l.getLastD d)).dropLast).Nodup :=
  ((set_getLastD_dropLast_perm l d k hk).nodup_iff).mpr
    (List.Nodup.sublist (List.eraseIdx_sublist l k) hnd)

theorem swapRemove_not_mem {α : Type} (l : List α) (d : α) (k : Nat) (s : α)
    (hnd : l.Nodup) (hget : l[k]? = some s) :
    s ∉ (l.set k (l.getLastD d)).dropLast := by
  obtain ⟨hk, hv⟩ := List.getElem?_eq_some.mp hget
  intro hmem
  have hperm := set_getLastD_dropLast_perm l d k hk
  have hmem2 : s ∈ l.eraseIdx k := hperm.mem_iff.mp hmem
  rw [List.mem_eraseIdx_iff_getElem] at hmem2
  obtain ⟨i, hi, hik, hiv⟩ := hmem2
  exact hik (hnd.getElem_inj_iff.mp (hiv.trans hv.symm))

/-- C4 amended: over any sequence of IPAM operations, (i) `RequestIP` and
(ii) `ReleaseIP` preserve the invariant that no two live allocations of a
prefix hold the same address; (iii) a successful `ReleaseIP` removes the
released address from its prefix's allocated set; and (iv) whenever an
address x in a prefix's usable range is unallocated, `RequestIP` on that
prefix succeeds and returns an address no greater than x (first-fit from
the low end), so a never-tried address higher in the range than a free
released address is never returned. -/
theorem ipam_alloc_release_spec :
    (∀ (so : Bool) (st : IPAM) (pfx : IPNet), NodupAll st →
      NodupAll (IPAM.RequestIP so st pfx).2) ∧
    (∀ (so : Bool) (st : IPAM) (ipn : IPNet), NodupAll st →
      NodupAll (IPAM.ReleaseIP so st ipn).2) ∧
    (∀ (st : IPAM) (ipn : IPNet) (j k : Nat) (en : CIDR × Prefix) (s0 : String),
      NodupAll st →
      findIdxFrom (fun x => x.1.network.containsIP ipn.ip) st.prefixes = some (j, en) →
      findIdxFrom (fun s => s == ipStr ipn.ip) en.2.allocatedIPs = some (k, s0) →
      (IPAM.ReleaseIP true st ipn).1 = Except.ok () ∧
      (IPAM.ReleaseIP true st ipn).2.prefixes =
        st.prefixes.set j (en.1, { en.2 with allocatedIPs :=
          (en.2.allocatedIPs.set k (en.2.allocatedIPs.getLastD "")).dropLast }) ∧
      ipStr ipn.ip ∉ (en.2.allocatedIPs.set k (en.2.allocatedIPs.getLastD "")).dropLast) ∧
    (∀ (st : IPAM) (pfx : IPNet) (j : Nat) (en : CIDR × Prefix) (x : Nat),
      findIdxFrom (fun e => e.1.raw == pfx.cidrString) st.prefixes = some (j, en) →
      pfx.ones ≠ 32 → pfx.ip < x → x < bcastOf pfx →
      contains en.2.allocatedIPs (ipStr x) = false →
      ∃ r st', IPAM.RequestIP true st pfx = (Except.ok r, st') ∧ r.ip ≤ x) := by
  refine ⟨?_, ?_, ?_, ?_⟩
  · intro so st pfx h
    cases hf : findIdxFrom (fun x => x.1.raw == pfx.cidrString) st.prefixes with
    | none => simpa [IPAM.RequestIP, hf] using h
    | some r =>
      obtain ⟨i, en⟩ := r
      have hmem := findIdxFrom_mem _ _ _ _ hf
      have hnd_en := h en hmem
      by_cases h32 : (pfx.ones == 32) = true
      · simpa [IPAM.RequestIP, hf, h32] using h
      · cases hs : scanIP en.2.allocatedIPs (pfx.ip + 1) (bcastOf pfx) with
        | none => simpa [IPAM.RequestIP, hf, h32, hs] using h
        | some cand =>
          obtain ⟨_, _, hfreeb, _⟩ := scanIPAux_some en.2.allocatedIPs _ _ _ hs
          have hfree : ipStr cand ∉ en.2.allocatedIPs := by
            rw [← contains_iff en.2.allocatedIPs (ipStr cand)]
            simp [hfreeb]
          cases so with
          | false =>
            have hset := findIdxFrom_set_self _ _ _ _ hf
            simpa [IPAM.RequestIP, hf, h32, hs, List.dropLast_concat, hset] using h
          | true =>
            simp only [IPAM.RequestIP, hf, h32, hs, Bool.false_eq_true, if_false,
              if_true]
            intro en' hmem'
            rcases List.mem_or_eq_of_mem_set (by simpa using hmem') with hin | heq
            · exact h en' hin
            · rw [heq]
              rw [List.nodup_append]
              exact ⟨hnd_en, List.nodup_singleton _, List.disjoint_singleton.mpr hfree⟩
  · intro so st ipn h
    cases hf : findIdxFrom (fun x => x.1.network.containsIP ipn.ip) st.prefixes with
    | none => simpa [IPAM.ReleaseIP, hf] using h
    | some r =>
      obtain ⟨j, en⟩ := r
      cases hx : findIdxFrom (fun s => s == ipStr ipn.ip) en.2.allocatedIPs with
      | none => simpa [IPAM.ReleaseIP, hf, hx] using h
      | some rk =>
        obtain ⟨k, s0⟩ := rk
        have hmem := findIdxFrom_mem _ _ _ _ hf
        have hnd_en := h en hmem
        obtain ⟨hget, hpk⟩ := findIdxFrom_some _ _ _ _ hx
        have hk : k < en.2.allocatedIPs.length := (List.getElem?_eq_some.mp hget).1
        simp only [IPAM.ReleaseIP, hf, hx]
        intro en' hmem'
        rcases List.mem_or_eq_of_mem_set (by simpa using hmem') with hin | heq
        · exact h en' hin
        · rw [heq]
          simpa using swapRemove_nodup en.2.allocatedIPs "" k hk hnd_en
  · intro st ipn j k en s0 hnd hfind hidx
    obtain ⟨hget, hpk⟩ := findIdxFrom_some _ _ _ _ hidx
    have hs0 : s0 = ipStr ipn.ip := by simpa using hpk
    subst hs0
    refine ⟨by simp [IPAM.ReleaseIP, hfind, hidx, saveState],
      by simp [IPAM.ReleaseIP, hfind, hidx, saveState], ?_⟩
    exact swapRemove_not_mem _ "" k _ (hnd en (findIdxFrom_mem _ _ _ _ hfind)) hget
  · intro st pfx j en x hfind h32 hx1 hx2 hfree
    have h32f : (pfx.ones == 32) = false := by simp [h32]
    obtain ⟨r0, hscan, hle⟩ := scanIPAux_le en.2.allocatedIPs
      (bcastOf pfx - (pfx.ip + 1)) (pfx.ip + 1) x (by omega) (by omega) hfree
    refine ⟨⟨r0, pfx.ones⟩, (IPAM.RequestIP true st pfx).2, ?_, hle⟩
    have h1 : (IPAM.RequestIP true st pfx).1 = Except.ok ⟨r0, pfx.ones⟩ := by
      simp [IPAM.RequestIP, hfind, h32f, scanIP, hscan]
    exact Prod.ext_iff.mpr ⟨h1, rfl⟩

/-- Witness for C4's amended theorem at concrete stores. -/
theorem ipam_alloc_release_spec_witness :
    NodupAll st30a ∧
    NodupAll (IPAM.ReleaseIP true stAlloc3 ⟨ipTen + 1, 24⟩).2 ∧
    ((IPAM.ReleaseIP true stAlloc3 ⟨ipTen + 1, 24⟩).1 = Except.ok () ∧
     (IPAM.ReleaseIP true stAlloc3 ⟨ipTen + 1, 24⟩).2.prefixes =
       [(⟨10, 0, 0, 0, 24⟩, ⟨"10.0.0.0/24", ["10.0.0.3", "10.0.0.2"]⟩)] ∧
     "10.0.0.1" ∉ ["10.0.0.3", "10.0.0.2"]) ∧
    (∃ r st', IPAM.RequestIP true stAfterReleases net24 = (Except.ok r, st') ∧
      r.ip ≤ ipTen + 3) :=
  ⟨ipam_alloc_release_spec.1 true st30 net30 (by unfold NodupAll; decide),
   ipam_alloc_release_spec.2.1 true stAlloc3 ⟨ipTen + 1, 24⟩ (by unfold NodupAll; decide),
   ipam_alloc_release_spec.2.2.1 stAlloc3 ⟨ipTen + 1, 24⟩ 0 0
     ⟨⟨10, 0, 0, 0, 24⟩, ⟨"10.0.0.0/24", ["10.0.0.1", "10.0.0.2", "10.0.0.3"]⟩⟩
     "10.0.0.1" (by unfold NodupAll; decide) (by decide) (by decide),
   ipam_alloc_release_spec.2.2.2 stAfterReleases net24 0
     ⟨⟨10, 0, 0, 0, 24⟩, ⟨"10.0.0.0/24", ["10.0.0.2"]⟩⟩ (ipTen + 3)
     (by decide) (by decide) (by decide) (by decide) (by decide)⟩

/-- Counterexample to C4 as stated: after `ReleaseIP` of 10.0.0.3 (10.0.0.1
also being free from an earlier release), the next `RequestIP` on the prefix
returns 10.0.0.1 — not the just-released 10.0.0.3, although 10.0.0.3 is
free in the store. -/
theorem release_then_request_cex :
    (IPAM.ReleaseIP true (IPAM.ReleaseIP true stAlloc3 ⟨ipTen + 1, 24⟩).2
      ⟨ipTen + 3, 24⟩).1 = Except.ok () ∧
    (IPAM.RequestIP true stAfterReleases net24).1 = Except.ok ⟨ipTen + 1, 24⟩ ∧
    ipTen + 1 ≠ ipTen + 3 ∧
    (∀ en ∈ stAfterReleases.prefixes,
      contains en.2.allocatedIPs (ipStr (ipTen + 3)) = false) := by
  decide

/-- C2: for a record whose status is `running`, when `Stop` finds the
recorded pid dead or the cgroup-membership corroboration fails, it updates
the stored status to `exited`, reports "container already stopped", and
sends no signal to the pid. -/
theorem stop_stale_pid (env : StopEnv) (inf : Info) (sig : String)
    (hrun : inf.status = Status.running)
    (hstale : env.killProbe 0 = false ∨ env.verify = false)
    (hsave : env.saveOk = true) :
    Stop env inf sig =
      ⟨Except.error "container already stopped", { inf with status := Status.exited },
       [{ inf with status := Status.exited }], []⟩ := by
  rcases hstale with h | h <;> simp [Stop, hrun, h, hsave]

/-- Witness for C2: a dead recorded pid and, separately, an alive pid whose
cgroup membership no longer names the container. -/
theorem stop_stale_pid_witness :
    Stop envDeadPid infoW "" =
      ⟨Except.error "container already stopped", { infoW with status := Status.exited },
       [{ infoW with status := Status.exited }], []⟩ ∧
    Stop envRecycledPid infoW "SIGKILL" =
      ⟨Except.error "container already stopped", { infoW with status := Status.exited },
       [{ infoW with status := Status.exited }], []⟩ :=
  ⟨stop_stale_pid envDeadPid infoW "" rfl (Or.inl rfl) rfl,
   stop_stale_pid envRecycledPid infoW "SIGKILL" rfl (Or.inr rfl) rfl⟩

/-- Counterexample to C1 as stated: with every step succeeding except
cgroup configuration, `Init` fails after the process spawn and before the
info record is written, and indeed persists no record — but it tears
nothing down: the overlay is attached and no cleanup action occurs before
the error returns, contradicting the claimed rollback. -/
theorem init_rollback_cex :
    isError (Init envCgroupFail).1 = true ∧
    InitAction.overlaySetup ∈ (Init envCgroupFail).2 ∧
    InitAction.saveInfoRec ∉ (Init envCgroupFail).2 ∧
    InitAction.overlayCleanup ∉ (Init envCgroupFail).2 ∧
    InitAction.cgroupRemove ∉ (Init envCgroupFail).2 ∧
    InitAction.networkDisconnect ∉ (Init envCgroupFail).2 := by
  decide

/-- C1 amended: if container creation fails after the container process has
been spawned but before the info record is written (cgroup configuration or
network attachment returns an error), then no container record is added to
persisted state — `saveInfo` is reached only after both steps succeed — but
the cgroup, overlay, and network resources already attached are not torn
down: `Init` returns the error leaving them in place (cleanup is left to a
later remove). -/
theorem init_fail_no_persist_no_rollback (env : InitEnv)
    (hstart : env.startOk = true)
    (hfail : env.cgroupsOk = false ∨ env.networkOk = false) :
    isError (Init env).1 = true ∧
    InitAction.saveInfoRec ∉ (Init env).2 ∧
    InitAction.overlayCleanup ∉ (Init env).2 ∧
    InitAction.cgroupRemove ∉ (Init env).2 ∧
    InitAction.networkDisconnect ∉ (Init env).2 := by
  obtain ⟨p, cd, pr, ov, stt, w, cg, nw, sv⟩ := env
  simp only at hstart hfail
  subst hstart
  cases p <;> cases cd <;> cases pr <;> cases ov <;> cases w <;>
    cases cg <;> cases nw <;> cases sv <;>
      first
        | decide
        | (rcases hfail with h | h <;> exact absurd h (by decide))

/-- Witness for C1's amended theorem at the cgroup-failure environment. -/
theorem init_fail_no_persist_no_rollback_witness :
    isError (Init envCgroupFail).1 = true ∧
    InitAction.saveInfoRec ∉ (Init envCgroupFail).2 ∧
    InitAction.overlayCleanup ∉ (Init envCgroupFail).2 ∧
    InitAction.cgroupRemove ∉ (Init envCgroupFail).2 ∧
    InitAction.networkDisconnect ∉ (Init envCgroupFail).2 :=
  init_fail_no_persist_no_rollback envCgroupFail rfl (Or.inl rfl)

/-- C6: a CPU limit fraction f translates to quota = ⌊f × 100000⌋ with
period 100000, written to `cpu.max` as "quota period"; a fraction greater
than the number of visible cores is rejected with an error before any
`cpu.max` write (not silently clamped). Concretely f = 1/2 yields
"50000 100000". -/
theorem ratFloor_eq_intFloor (q : ℚ) : q.floor = ⌊q⌋ := by
  rw [Rat.floor_def', Rat.floor_def]

theorem setCPULimit_spec (cores : Nat) (f : ℚ) (pid : Int) (mem : String)
    (hpos : 0 < f) :
    (f ≤ (cores : ℚ) →
      setCPULimit cores f =
        Except.ok (toString ⌊f * 100000⌋ ++ " " ++ toString (100000 : Nat))) ∧
    ((cores : ℚ) < f →
      isError (Configure cores pid f mem).1 = true ∧
      ∀ s, ("cpu.max", s) ∉ (Configure cores pid f mem).2) ∧
    setCPULimit 1 (1 / 2) = Except.ok "50000 100000" := by
  refine ⟨?_, ?_, ?_⟩
  · intro hle
    have h0 : (0 : ℚ) ≤ f * (cpuPeriod : ℚ) := by
      have : (0 : ℚ) ≤ (cpuPeriod : ℚ) := by positivity
      exact mul_nonneg hpos.le this
    simp only [setCPULimit, goInt, not_lt.mpr hle, if_neg, if_pos h0,
      ratFloor_eq_intFloor]
    norm_num [cpuPeriod]
  · intro hgt
    have hne : f ≠ 0 := by positivity
    have herr : setCPULimit cores f =
        Except.error "specified CPU limit exceeds available cores" := by
      simp [setCPULimit, hgt]
    by_cases hm : (mem != "") = true <;>
      simp [Configure, hne, herr, hm, isError]
  · have hnotgt : ¬((1 : ℚ) / 2 > ((1 : Nat) : ℚ)) := by norm_num
    have h0 : (0 : ℚ) ≤ (1 / 2 : ℚ) * (cpuPeriod : ℚ) := by positivity
    simp only [setCPULimit, goInt, if_neg hnotgt, if_pos h0, ratFloor_eq_intFloor]
    have hprod : ((1 : ℚ) / 2) * (cpuPeriod : ℚ) = (50000 : ℚ) := by
      norm_num [cpuPeriod]
    rw [hprod]
    norm_num
    rfl

/-- Witness for C6: a half-core limit on one visible core is written as
"50000 100000"; a 3/2-core limit on one core is rejected with no `cpu.max`
write. -/
theorem setCPULimit_spec_witness :
    setCPULimit 1 (1 / 2) =
      Except.ok (toString ⌊(1 / 2 : ℚ) * 100000⌋ ++ " " ++ toString (100000 : Nat)) ∧
    isError (Configure 1 7 (3 / 2) "100m").1 = true ∧
    ("cpu.max", "150000 100000") ∉ (Configure 1 7 (3 / 2) "100m").2 :=
  ⟨(setCPULimit_spec 1 (1 / 2) 7 "100m" (by norm_num)).1 (by norm_num),
   ((setCPULimit_spec 1 (3 / 2) 7 "100m" (by norm_num)).2.1 (by norm_num)).1,
   ((setCPULimit_spec 1 (3 / 2) 7 "100m" (by norm_num)).2.1 (by norm_num)).2
     "150000 100000"⟩

/-- C8: for every endpoint, port-forwarding teardown issues delete commands
for exactly the same three firewall rules that setup installed, in the same
order and with byte-for-byte identical match criteria: each cleanup command
is the corresponding setup command with the `-A` at argument position 2
replaced by `-D`, and every setup command carries `-A` there. -/
theorem cleanup_mirrors_setup (ep : Endpoint) :
    cleanupPortForwarding ep = (setupPortForwarding ep).map (fun cmd => cmd.set 2 "-D") ∧
    ∀ cmd ∈ setupPortForwarding ep, cmd[2]? = some "-A" := by
  obtain ⟨ip, hi, pms⟩ := ep
  induction pms with
  | nil => simp [setupPortForwarding, cleanupPortForwarding]
  | cons pm rest ih =>
    obtain ⟨ih1, ih2⟩ := ih
    constructor
    · simp only [setupPortForwarding, cleanupPortForwarding, List.flatMap_cons,
        List.map_append] at ih1 ⊢
      rw [ih1]
      rfl
    · intro cmd hcmd
      simp only [setupPortForwarding, List.flatMap_cons, List.mem_append] at hcmd
      rcases hcmd with h | h
      · simp only [List.mem_cons, List.not_mem_nil, or_false] at h
        rcases h with h | h | h <;> subst h <;> rfl
      · exact ih2 cmd (by simpa [setupPortForwarding] using h)

end Tinydock
